import Mathlib

/-! json-server: positional CRUD over named tables.

A shallow embedding of `main.go`.  The process-wide map `db` becomes an explicit
component of a `World` value that every function takes and returns, together
with the log of calls made on the `http.ResponseWriter`, the log of calls of
`WriteDB` (each entry is the map the call was asked to write), and the run-time
fault (Go panic) raised, if any.

What is taken from outside the program:

* the file system: `WriteDB` succeeds or fails as an oracle bit says;
* `encoding/json`: a request carries the outcome of decoding its body, and a
  marshalled value is kept as the value itself (`Payload`);
* `strconv.Atoi` and `strings.Split` are written out after the Go library
  (64-bit `int`).
-/

namespace JsonServer

/-! ## Values -/

/-- The value `encoding/json` stores in an `interface{}`: `null` is Go's nil
interface value, numbers are finite `float64` values (kept as rationals). -/
inductive Json where
  | null : Json
  | bool (b : Bool) : Json
  | number (q : Rat) : Json
  | string (s : String) : Json
  | array (xs : List Json) : Json
  | object (kvs : List (String × Json)) : Json

/-- The test `dat == nil` on an `interface{}`. -/
def Json.isNil : Json → Bool
  | Json.null => true
  | _ => false

/-- A Go slice `[]interface{}`: the nil slice, or a slice holding `elems`
(capacity and backing array are not observable in this program). -/
inductive Slice where
  | nil : Slice
  | mk (elems : List Json) : Slice

/-- The elements of a slice, in order. -/
def Slice.toList : Slice → List Json
  | Slice.nil => []
  | Slice.mk l => l

/-- Go `len(s)`. -/
def len (s : Slice) : Int := (s.toList.length : Int)

/-- Go `s[i]`: `none` is the run-time fault "index out of range". -/
def Slice.index (s : Slice) (i : Int) : Option Json :=
  if 0 ≤ i ∧ i < len s then s.toList[i.toNat]? else none

/-- Go `s[i] = v`: `none` is the run-time fault "index out of range". -/
def Slice.setIndex (s : Slice) (i : Int) (v : Json) : Option Slice :=
  if 0 ≤ i ∧ i < len s then some (Slice.mk (s.toList.set i.toNat v)) else none

/-- Go `s[:hi]`: `none` is the run-time fault "slice bounds out of range".
Go allows `hi` up to the capacity; the callers here only reach it with
`hi < len s` or `hi < 0`. A slice of the nil slice is nil. -/
def Slice.sliceTo (s : Slice) (hi : Int) : Option Slice :=
  if 0 ≤ hi ∧ hi ≤ len s then
    match s with
    | Slice.nil => some Slice.nil
    | Slice.mk l => some (Slice.mk (l.take hi.toNat))
  else none

/-- Go `s[lo:]`: `none` is the run-time fault "slice bounds out of range". -/
def Slice.sliceFrom (s : Slice) (lo : Int) : Option Slice :=
  if 0 ≤ lo ∧ lo ≤ len s then
    match s with
    | Slice.nil => some Slice.nil
    | Slice.mk l => some (Slice.mk (l.drop lo.toNat))
  else none

/-- Go `append(s, v)`: the result is never nil. -/
def Slice.append (s : Slice) (v : Json) : Slice := Slice.mk (s.toList ++ [v])

/-- Go `append(s, t...)`: appending no element gives `s` back. -/
def Slice.appendAll (s t : Slice) : Slice :=
  match t.toList with
  | [] => s
  | x :: xs => Slice.mk (s.toList ++ x :: xs)

/-! ## The database -/

/-- The map `db`: a table name is present with its slice, or absent. -/
abbrev DB := String → Option Slice

/-- Go `db[k]` as a value: the nil slice when the key is absent. -/
def DB.get (db : DB) (k : String) : Slice := (db k).getD Slice.nil

/-- Go `db[k] = s`. -/
def DB.set (db : DB) (k : String) (s : Slice) : DB :=
  fun j => if j = k then some s else db j

/-- Go `delete(db, k)`. -/
def DB.delete (db : DB) (k : String) : DB :=
  fun j => if j = k then none else db j

/-- Go `_, exists := db[k]`. -/
def DB.exists (db : DB) (k : String) : Bool := (db k).isSome

/-! ## The response writer and the world -/

/-- Bytes handed to `w.Write`: an `error_message` object, a plain text, a
marshalled record, or a marshalled slice of records. -/
inductive Payload where
  | error (message : String) : Payload
  | text (s : String) : Payload
  | value (v : Json) : Payload
  | table (s : Slice) : Payload

/-- `NewResponseError`: the JSON object with the one field `error_message`. -/
def NewResponseError (message : String) : Payload := Payload.error message

/-- Go `json.Marshal` on one record; `none` would be `err != nil`. A value that
`encoding/json` decoded is always marshalled, and the bytes stand for it. -/
def Marshal (v : Json) : Option Payload := some (Payload.value v)

/-- Go `json.Marshal` on a slice of records (`null` for the nil slice, an array
otherwise); `none` would be `err != nil`. -/
def MarshalSlice (s : Slice) : Option Payload := some (Payload.table s)

/-- A call made on the `http.ResponseWriter`. -/
inductive WCall where
  | SetHeader (key value : String) : WCall
  | WriteHeader (code : Nat) : WCall
  | Write (p : Payload) : WCall

/-- A Go run-time panic. -/
inductive Fault where
  | indexOutOfRange : Fault
  | sliceBoundsOutOfRange : Fault
deriving DecidableEq

/-- Everything a handler reads and changes: the map `db`, the calls made on
the response writer (oldest first), the map as it was at each call of
`WriteDB` (oldest first), and the panic raised, if any. -/
structure World where
  db : DB
  w : List WCall
  writeDBCalls : List DB
  fault : Option Fault

def StatusOK : Nat := 200
def StatusBadRequest : Nat := 400
def StatusNotFound : Nat := 404
def StatusMethodNotAllowed : Nat := 405
def StatusInternalServerError : Nat := 500

/-- The call `w.Header().Set(key, value)`. -/
def World.SetHeader (s : World) (key value : String) : World :=
  { s with w := s.w ++ [WCall.SetHeader key value] }

/-- The call `w.WriteHeader(code)`. -/
def World.WriteHeader (s : World) (code : Nat) : World :=
  { s with w := s.w ++ [WCall.WriteHeader code] }

/-- The call `w.Write(p)`. -/
def World.Write (s : World) (p : Payload) : World :=
  { s with w := s.w ++ [WCall.Write p] }

/-- A panic: the fault is recorded and nothing else runs. -/
def World.panic (s : World) (f : Fault) : World :=
  { s with fault := some f }

/-- `WriteDB`: the current map is marshalled and written to the file; the
oracle bit `ok` says whether the returned `err` is nil. -/
def WriteDB (s : World) (ok : Bool) : World × Bool :=
  ({ s with writeDBCalls := s.writeDBCalls ++ [s.db] }, ok)

/-! ## Library functions -/

/-- The value of a run of decimal digits, `none` if a character is no digit. -/
def parseDigits : List Char → Nat → Option Nat
  | [], acc => some acc
  | c :: cs, acc =>
    if 48 ≤ c.toNat ∧ c.toNat ≤ 57 then parseDigits cs (acc * 10 + (c.toNat - 48))
    else none

/-- Go `strconv.Atoi` with a 64-bit `int`: an optional sign, then one or more
decimal digits, and the value within the range of `int`; `none` is `err != nil`. -/
def Atoi (s : String) : Option Int :=
  let body : Bool × List Char :=
    match s.data with
    | c :: cs => if c = Char.ofNat 45 then (true, cs)
                 else if c = Char.ofNat 43 then (false, cs) else (false, c :: cs)
    | [] => (false, [])
  match body.2 with
  | [] => none
  | d :: ds =>
    match parseDigits (d :: ds) 0 with
    | none => none
    | some n =>
      if body.1 then (if n ≤ 2 ^ 63 then some (-(n : Int)) else none)
      else (if n < 2 ^ 63 then some (n : Int) else none)

/-- The pieces of a character list between occurrences of `sep`. -/
def splitChars (sep : Char) : List Char → List (List Char)
  | [] => [[]]
  | c :: cs =>
    if c = sep then [] :: splitChars sep cs
    else
      match splitChars sep cs with
      | [] => [[c]]
      | h :: t => (c :: h) :: t

/-- Go `strings.Split(s, "/")`. -/
def Split (s : String) : List String :=
  (splitChars (Char.ofNat 47) s.data).map String.mk

/-! ## The program -/

/-- An incoming request: `r.Method`, `r.URL.Path`, and what
`json.NewDecoder(r.Body).Decode` gives (`none`: it returns an error). -/
structure Request where
  Method : String
  Path : String
  Body : Option Json

/-- `GetPositionNumber`. -/
def GetPositionNumber (s : World) (params : List String) : World × Int :=
  match params with
  | _ :: _ :: p :: _ =>
    match Atoi p with
    | none =>
      ((s.WriteHeader StatusBadRequest).Write
        (NewResponseError "Position could not be converted to int"), -1)
    | some positionNumber => (s, positionNumber)
  | _ =>
    ((s.WriteHeader StatusBadRequest).Write
      (NewResponseError "Position number is missing"), -1)

/-- `ReadBody`: nil after a decoding error, the decoded value otherwise. -/
def ReadBody (s : World) (r : Request) : World × Json :=
  match r.Body with
  | none =>
    ((s.WriteHeader StatusBadRequest).Write (NewResponseError "Error decoding data"),
      Json.null)
  | some dat => (s, dat)

/-- `GetAll`. -/
def GetAll (s : World) (tableName : String) : World :=
  match MarshalSlice (s.db.get tableName) with
  | none =>
    (s.WriteHeader StatusInternalServerError).Write (NewResponseError "Error getting data")
  | some data => (s.WriteHeader StatusOK).Write data

/-- `GetFromPosition`. -/
def GetFromPosition (s : World) (tableName : String) (params : List String) : World :=
  let r := GetPositionNumber s params
  let s := r.1
  let positionNumber := r.2
  if positionNumber = -1 then s
  else if positionNumber ≥ len (s.db.get tableName) then
    (s.WriteHeader StatusNotFound).Write
      (NewResponseError "Position is bigger than the number of elements in the table")
  else
    match (s.db.get tableName).index positionNumber with
    | none => s.panic Fault.indexOutOfRange
    | some v =>
      match Marshal v with
      | none =>
        (s.WriteHeader StatusInternalServerError).Write (NewResponseError "Error getting data")
      | some dat => (s.WriteHeader StatusOK).Write dat

/-- `PostData`. -/
def PostData (s : World) (dat : Json) (tableName : String) (ok : Bool) : World :=
  let s := { s with db := s.db.set tableName ((s.db.get tableName).append dat) }
  let r := WriteDB s ok
  let s := r.1
  if r.2 = false then
    (s.WriteHeader StatusInternalServerError).Write
      (NewResponseError "Error writing data in db")
  else (s.WriteHeader StatusOK).Write (Payload.text "Data appended")

/-- `PutData`. -/
def PutData (s : World) (dat : Json) (tableName : String) (params : List String)
    (ok : Bool) : World :=
  let r := GetPositionNumber s params
  let s := r.1
  let positionNumber := r.2
  if positionNumber = -1 then s
  else if positionNumber ≥ len (s.db.get tableName) then
    (s.WriteHeader StatusNotFound).Write
      (NewResponseError "Position is bigger than the number of elements in the table")
  else
    match (s.db.get tableName).setIndex positionNumber dat with
    | none => s.panic Fault.indexOutOfRange
    | some t =>
      let s := { s with db := s.db.set tableName t }
      let r := WriteDB s ok
      let s := r.1
      if r.2 = false then
        (s.WriteHeader StatusInternalServerError).Write
          (NewResponseError "Error writing data in db")
      else (s.WriteHeader StatusOK).Write (Payload.text "Data modified")

/-- `DeleteTable`. -/
def DeleteTable (s : World) (tableName : String) (ok : Bool) : World :=
  if s.db.exists tableName = false then
    (s.WriteHeader StatusNotFound).Write (NewResponseError "Table does not exist")
  else
    let s := { s with db := s.db.delete tableName }
    let r := WriteDB s ok
    let s := r.1
    if r.2 = false then
      (s.WriteHeader StatusInternalServerError).Write
        (NewResponseError "Error writing data in db")
    else (s.WriteHeader StatusOK).Write (Payload.text "Table deleted")

/-- `DeleteFromPosition`. The sum `positionNumber + 1` is only reached with
`positionNumber < len`, where it does not overflow. -/
def DeleteFromPosition (s : World) (tableName : String) (params : List String)
    (ok : Bool) : World :=
  let r := GetPositionNumber s params
  let s := r.1
  let positionNumber := r.2
  if positionNumber = -1 then s
  else if positionNumber ≥ len (s.db.get tableName) then
    (s.WriteHeader StatusNotFound).Write
      (NewResponseError "Position is bigger than the number of elements in the table")
  else
    match (s.db.get tableName).sliceTo positionNumber with
    | none => s.panic Fault.sliceBoundsOutOfRange
    | some front =>
      match (s.db.get tableName).sliceFrom (positionNumber + 1) with
      | none => s.panic Fault.sliceBoundsOutOfRange
      | some back =>
        let s := { s with db := s.db.set tableName (front.appendAll back) }
        let r := WriteDB s ok
        let s := r.1
        if r.2 = false then
          (s.WriteHeader StatusInternalServerError).Write
            (NewResponseError "Error writing data in db")
        else (s.WriteHeader StatusOK).Write (Payload.text "Data deleted")

/-- `Handler`, run on a fresh response writer against the database `db`;
`ok` is the outcome of the call of `WriteDB`, if one is made. -/
def Handler (db : DB) (r : Request) (ok : Bool) : World :=
  let s : World := ⟨db, [], [], none⟩
  let params := Split r.Path
  let nParams := params.length
  match params with
  | _ :: tableName :: _ =>
    let s := s.SetHeader "Content-Type" "application/json"
    if tableName = "" then
      (s.WriteHeader StatusBadRequest).Write (NewResponseError "Table name is required")
    else if r.Method = "GET" then
      if s.db.exists tableName = false then
        (s.WriteHeader StatusNotFound).Write (NewResponseError "Table not found")
      else if nParams = 2 then GetAll s tableName
      else GetFromPosition s tableName params
    else if r.Method = "POST" then
      let b := ReadBody s r
      if b.2.isNil then b.1 else PostData b.1 b.2 tableName ok
    else if r.Method = "PUT" then
      let b := ReadBody s r
      if b.2.isNil then b.1 else PutData b.1 b.2 tableName params ok
    else if r.Method = "DELETE" then
      if nParams = 2 then DeleteTable s tableName ok
      else DeleteFromPosition s tableName params ok
    else
      (s.WriteHeader StatusMethodNotAllowed).Write
        (NewResponseError "Unknown method. Use instead GET, POST, PUT or DELETE.")
  | _ => s.panic Fault.indexOutOfRange

/-! ## Which requests reach the two functions that change table existence -/

/-- The request reaches the call `PostData(w, dat, tableName)` of `Handler`:
there is a table name, it is not empty, the method is POST and `ReadBody`
returns a value other than nil. -/
def reachesPostData (r : Request) : Bool :=
  match Split r.Path with
  | _ :: tableName :: _ =>
    match r.Body with
    | some dat => tableName != "" && r.Method == "POST" && !dat.isNil
    | none => false
  | _ => false

/-- The request reaches the call `DeleteTable(w, tableName)` of `Handler`:
the path has exactly two pieces, the table name is not empty and the method is
DELETE. -/
def reachesDeleteTable (r : Request) : Bool :=
  match Split r.Path with
  | [_, tableName] => tableName != "" && r.Method == "DELETE"
  | _ => false

/-! ## An answered request -/

/-- The payload is an `error_message` object. -/
def Payload.isError : Payload → Bool
  | Payload.error _ => true
  | _ => false

/-- What the writer holds when `Handler` has answered: the content type, then
one status and one body, where the status is 200, or the status is one of 400,
404, 405 and 500 and the body is an `error_message` object. -/
def answered (w : List WCall) : Bool :=
  match w with
  | [WCall.SetHeader key value, WCall.WriteHeader code, WCall.Write body] =>
    key == "Content-Type" && value == "application/json" &&
      (code == 200 ||
        ((code == 400 || code == 404 || code == 405 || code == 500) && body.isError))
  | _ => false

/-! ## Sample data -/

def recA : Json := Json.string "a"
def recB : Json := Json.string "b"
def recC : Json := Json.number 3

/-- One table `t` holding `[recA, recB, recC]`. -/
def sampleDB : DB := fun k => if k = "t" then some (Slice.mk [recA, recB, recC]) else none

/-- No table at all. -/
def emptyDB : DB := fun _ => none

/-- A world with the sample map and nothing written yet. -/
def sampleWorld : World := ⟨sampleDB, [], [], none⟩

/-! ## Slices -/

theorem len_eq (t : Slice) : len t = (t.toList.length : Int) := rfl

theorem Slice.index_natCast (t : Slice) (p : Nat) (hp : p < t.toList.length) :
    t.index (p : Int) = t.toList[p]? := by
  have h : (0 : Int) ≤ (p : Int) ∧ (p : Int) < len t := by
    rw [len_eq]; omega
  simp [Slice.index, h]

theorem Slice.index_of_neg (t : Slice) (i : Int) (hi : i < 0) : t.index i = none := by
  have h : ¬ ((0 : Int) ≤ i ∧ i < len t) := by omega
  simp [Slice.index, h]

theorem Slice.setIndex_natCast (t : Slice) (p : Nat) (v : Json) (hp : p < t.toList.length) :
    t.setIndex (p : Int) v = some (Slice.mk (t.toList.set p v)) := by
  have h : (0 : Int) ≤ (p : Int) ∧ (p : Int) < len t := by
    rw [len_eq]; omega
  simp [Slice.setIndex, h]

theorem Slice.setIndex_of_neg (t : Slice) (i : Int) (v : Json) (hi : i < 0) :
    t.setIndex i v = none := by
  have h : ¬ ((0 : Int) ≤ i ∧ i < len t) := by omega
  simp [Slice.setIndex, h]

theorem Slice.sliceTo_of_neg (t : Slice) (i : Int) (hi : i < 0) : t.sliceTo i = none := by
  have h : ¬ ((0 : Int) ≤ i ∧ i ≤ len t) := by omega
  simp [Slice.sliceTo, h]

theorem Slice.eq_mk_of_pos (t : Slice) (h : 0 < t.toList.length) : t = Slice.mk t.toList := by
  cases t with
  | nil => simp [Slice.toList] at h
  | mk l => rfl

theorem Slice.splice_natCast (t : Slice) (p : Nat) (hp : p < t.toList.length) :
    ∃ front back, t.sliceTo (p : Int) = some front ∧ t.sliceFrom ((p : Int) + 1) = some back ∧
      front.appendAll back = Slice.mk (t.toList.take p ++ t.toList.drop (p + 1)) := by
  cases t with
  | nil => simp [Slice.toList] at hp
  | mk l =>
    have hp' : p < l.length := hp
    have h1 : (0 : Int) ≤ (p : Int) ∧ (p : Int) ≤ len (Slice.mk l) := by
      rw [len_eq]; simp only [Slice.toList]; omega
    have h2 : (0 : Int) ≤ (p : Int) + 1 ∧ (p : Int) + 1 ≤ len (Slice.mk l) := by
      rw [len_eq]; simp only [Slice.toList]; omega
    have h3 : ((p : Int) + 1).toNat = p + 1 := by omega
    refine ⟨Slice.mk (l.take p), Slice.mk (l.drop (p + 1)), ?_, ?_, ?_⟩
    · simp [Slice.sliceTo, h1]
    · simp [Slice.sliceFrom, h2, h3]
    · simp only [Slice.appendAll, Slice.toList]
      cases hd : l.drop (p + 1) with
      | nil => simp
      | cons x xs => rfl

/-! ## The map -/

theorem DB.set_same (db : DB) (k : String) (t : Slice) : (db.set k t) k = some t := by
  simp [DB.set]

theorem DB.set_other (db : DB) (k j : String) (t : Slice) (h : j ≠ k) :
    (db.set k t) j = db j := by
  simp [DB.set, h]

theorem DB.eq_some_of_pos (db : DB) (k : String) (h : 0 < (db.get k).toList.length) :
    db k = some (db.get k) := by
  unfold DB.get at h ⊢
  cases hk : db k with
  | none => rw [hk] at h; simp [Slice.toList] at h
  | some t => rfl

/-! ## The position number -/

theorem GetPositionNumber_parsed (s : World) (a b pos : String) (rest : List String) (n : Int)
    (h : Atoi pos = some n) : GetPositionNumber s (a :: b :: pos :: rest) = (s, n) := by
  simp [GetPositionNumber, h]

theorem GetPositionNumber_unparsed (s : World) (a b pos : String) (rest : List String)
    (h : Atoi pos = none) :
    GetPositionNumber s (a :: b :: pos :: rest) =
      ((s.WriteHeader StatusBadRequest).Write
        (NewResponseError "Position could not be converted to int"), -1) := by
  simp [GetPositionNumber, h]

/-! ## The engine functions on each branch -/

theorem GetFromPosition_inRange (s : World) (T a b pos : String) (rest : List String) (p : Nat)
    (hpos : Atoi pos = some (p : Int)) (hp : p < (s.db.get T).toList.length) :
    GetFromPosition s T (a :: b :: pos :: rest) =
      (s.WriteHeader StatusOK).Write (Payload.value ((s.db.get T).toList.get ⟨p, hp⟩)) := by
  have h1 : ¬ ((p : Int) = -1) := by omega
  have h2 : ¬ ((p : Int) ≥ len (s.db.get T)) := by rw [len_eq]; omega
  simp only [GetFromPosition, GetPositionNumber_parsed s a b pos rest _ hpos, h1, h2, if_false,
    Slice.index_natCast _ p hp]
  rw [List.getElem?_eq_getElem hp]
  rfl

theorem PutData_inRange (s : World) (dat : Json) (T a b pos : String) (rest : List String)
    (p : Nat) (ok : Bool)
    (hpos : Atoi pos = some (p : Int)) (hp : p < (s.db.get T).toList.length) :
    PutData s dat T (a :: b :: pos :: rest) ok =
      if ok = false then
        (({ s with db := s.db.set T (Slice.mk ((s.db.get T).toList.set p dat)),
                   writeDBCalls := s.writeDBCalls ++
                     [s.db.set T (Slice.mk ((s.db.get T).toList.set p dat))] } : World).WriteHeader
          StatusInternalServerError).Write (NewResponseError "Error writing data in db")
      else
        (({ s with db := s.db.set T (Slice.mk ((s.db.get T).toList.set p dat)),
                   writeDBCalls := s.writeDBCalls ++
                     [s.db.set T (Slice.mk ((s.db.get T).toList.set p dat))] } : World).WriteHeader
          StatusOK).Write (Payload.text "Data modified") := by
  have h1 : ¬ ((p : Int) = -1) := by omega
  have h2 : ¬ ((p : Int) ≥ len (s.db.get T)) := by rw [len_eq]; omega
  simp only [PutData, GetPositionNumber_parsed s a b pos rest _ hpos, h1, h2, if_false,
    Slice.setIndex_natCast _ p dat hp, WriteDB]

theorem DeleteFromPosition_inRange (s : World) (T a b pos : String) (rest : List String)
    (p : Nat) (ok : Bool)
    (hpos : Atoi pos = some (p : Int)) (hp : p < (s.db.get T).toList.length) :
    DeleteFromPosition s T (a :: b :: pos :: rest) ok =
      if ok = false then
        (({ s with db := s.db.set T (Slice.mk ((s.db.get T).toList.eraseIdx p)),
                   writeDBCalls := s.writeDBCalls ++
                     [s.db.set T (Slice.mk ((s.db.get T).toList.eraseIdx p))] } : World).WriteHeader
          StatusInternalServerError).Write (NewResponseError "Error writing data in db")
      else
        (({ s with db := s.db.set T (Slice.mk ((s.db.get T).toList.eraseIdx p)),
                   writeDBCalls := s.writeDBCalls ++
                     [s.db.set T (Slice.mk ((s.db.get T).toList.eraseIdx p))] } : World).WriteHeader
          StatusOK).Write (Payload.text "Data deleted") := by
  have h1 : ¬ ((p : Int) = -1) := by omega
  have h2 : ¬ ((p : Int) ≥ len (s.db.get T)) := by rw [len_eq]; omega
  obtain ⟨front, back, hf, hb, hfb⟩ := Slice.splice_natCast (s.db.get T) p hp
  simp only [DeleteFromPosition, GetPositionNumber_parsed s a b pos rest _ hpos, h1, h2,
    if_false, hf, hb, hfb, WriteDB, List.eraseIdx_eq_take_drop_succ]

theorem position_outOfRange (s : World) (dat : Json) (T a b pos : String)
    (rest : List String) (p : Int) (ok : Bool)
    (hpos : Atoi pos = some p) (hp : len (s.db.get T) ≤ p) :
    GetFromPosition s T (a :: b :: pos :: rest) =
        (s.WriteHeader StatusNotFound).Write
          (NewResponseError "Position is bigger than the number of elements in the table") ∧
    PutData s dat T (a :: b :: pos :: rest) ok =
        (s.WriteHeader StatusNotFound).Write
          (NewResponseError "Position is bigger than the number of elements in the table") ∧
    DeleteFromPosition s T (a :: b :: pos :: rest) ok =
        (s.WriteHeader StatusNotFound).Write
          (NewResponseError "Position is bigger than the number of elements in the table") := by
  have h0 : (0 : Int) ≤ len (s.db.get T) := by rw [len_eq]; omega
  have h1 : ¬ (p = -1) := by omega
  have h2 : p ≥ len (s.db.get T) := hp
  refine ⟨?_, ?_, ?_⟩
  · simp only [GetFromPosition, GetPositionNumber_parsed s a b pos rest _ hpos, h1, h2,
      if_false, if_true]
  · simp only [PutData, GetPositionNumber_parsed s a b pos rest _ hpos, h1, h2,
      if_false, if_true]
  · simp only [DeleteFromPosition, GetPositionNumber_parsed s a b pos rest _ hpos, h1, h2,
      if_false, if_true]

theorem PostData_eq (s : World) (dat : Json) (T : String) (ok : Bool) :
    PostData s dat T ok =
      if ok = false then
        (({ s with db := s.db.set T (Slice.mk ((s.db.get T).toList ++ [dat])),
                   writeDBCalls := s.writeDBCalls ++
                     [s.db.set T (Slice.mk ((s.db.get T).toList ++ [dat]))] } : World).WriteHeader
          StatusInternalServerError).Write (NewResponseError "Error writing data in db")
      else
        (({ s with db := s.db.set T (Slice.mk ((s.db.get T).toList ++ [dat])),
                   writeDBCalls := s.writeDBCalls ++
                     [s.db.set T (Slice.mk ((s.db.get T).toList ++ [dat]))] } : World).WriteHeader
          StatusOK).Write (Payload.text "Data appended") := by
  simp only [PostData, WriteDB, Slice.append]

/-! ## Dispatch in `Handler` -/

theorem Handler_panic_of_short (db : DB) (r : Request) (ok : Bool)
    (hpath : (Split r.Path).length < 2) :
    Handler db r ok = (⟨db, [], [], none⟩ : World).panic Fault.indexOutOfRange := by
  unfold Handler
  cases h : Split r.Path with
  | nil => rfl
  | cons x xs =>
    cases xs with
    | nil => rfl
    | cons y ys => rw [h] at hpath; simp only [List.length_cons] at hpath; omega

theorem Handler_empty_name (db : DB) (r : Request) (ok : Bool) (first : String)
    (rest : List String) (hpath : Split r.Path = first :: "" :: rest) :
    Handler db r ok =
      (((⟨db, [], [], none⟩ : World).SetHeader "Content-Type" "application/json").WriteHeader
        StatusBadRequest).Write (NewResponseError "Table name is required") := by
  simp only [Handler, hpath, if_true]

theorem Handler_GET (db : DB) (r : Request) (ok : Bool) (first T : String) (rest : List String)
    (hmethod : r.Method = "GET") (hpath : Split r.Path = first :: T :: rest) (hname : T ≠ "") :
    Handler db r ok =
      if db.exists T = false then
        (((⟨db, [], [], none⟩ : World).SetHeader "Content-Type" "application/json").WriteHeader
          StatusNotFound).Write (NewResponseError "Table not found")
      else if rest = [] then
        GetAll ((⟨db, [], [], none⟩ : World).SetHeader "Content-Type" "application/json") T
      else
        GetFromPosition ((⟨db, [], [], none⟩ : World).SetHeader "Content-Type" "application/json")
          T (first :: T :: rest) := by
  have hlen : ((first :: T :: rest).length = 2) = (rest = []) := by
    cases rest <;> simp
  simp only [Handler, hpath, hname, hmethod, if_true, if_false, World.SetHeader, hlen]

theorem Handler_POST (db : DB) (r : Request) (ok : Bool) (first T : String) (rest : List String)
    (hmethod : r.Method = "POST") (hpath : Split r.Path = first :: T :: rest) (hname : T ≠ "") :
    Handler db r ok =
      match r.Body with
      | none =>
        (((⟨db, [], [], none⟩ : World).SetHeader "Content-Type" "application/json").WriteHeader
          StatusBadRequest).Write (NewResponseError "Error decoding data")
      | some dat =>
        if dat.isNil then
          (⟨db, [], [], none⟩ : World).SetHeader "Content-Type" "application/json"
        else
          PostData ((⟨db, [], [], none⟩ : World).SetHeader "Content-Type" "application/json")
            dat T ok := by
  have h1 : ¬ ("POST" = "GET") := by decide
  simp only [Handler, hpath, hname, hmethod, h1, if_true, if_false, ReadBody]
  cases r.Body with
  | none => simp [Json.isNil]
  | some dat => simp

theorem Handler_PUT (db : DB) (r : Request) (ok : Bool) (first T : String) (rest : List String)
    (hmethod : r.Method = "PUT") (hpath : Split r.Path = first :: T :: rest) (hname : T ≠ "") :
    Handler db r ok =
      match r.Body with
      | none =>
        (((⟨db, [], [], none⟩ : World).SetHeader "Content-Type" "application/json").WriteHeader
          StatusBadRequest).Write (NewResponseError "Error decoding data")
      | some dat =>
        if dat.isNil then
          (⟨db, [], [], none⟩ : World).SetHeader "Content-Type" "application/json"
        else
          PutData ((⟨db, [], [], none⟩ : World).SetHeader "Content-Type" "application/json")
            dat T (first :: T :: rest) ok := by
  have h1 : ¬ ("PUT" = "GET") := by decide
  have h2 : ¬ ("PUT" = "POST") := by decide
  simp only [Handler, hpath, hname, hmethod, h1, h2, if_true, if_false, ReadBody]
  cases r.Body with
  | none => simp [Json.isNil]
  | some dat => simp

theorem Handler_DELETE (db : DB) (r : Request) (ok : Bool) (first T : String)
    (rest : List String)
    (hmethod : r.Method = "DELETE") (hpath : Split r.Path = first :: T :: rest) (hname : T ≠ "") :
    Handler db r ok =
      if rest = [] then
        DeleteTable ((⟨db, [], [], none⟩ : World).SetHeader "Content-Type" "application/json") T ok
      else
        DeleteFromPosition
          ((⟨db, [], [], none⟩ : World).SetHeader "Content-Type" "application/json")
          T (first :: T :: rest) ok := by
  have h1 : ¬ ("DELETE" = "GET") := by decide
  have h2 : ¬ ("DELETE" = "POST") := by decide
  have h3 : ¬ ("DELETE" = "PUT") := by decide
  have hlen : ((first :: T :: rest).length = 2) = (rest = []) := by
    cases rest <;> simp
  simp only [Handler, hpath, hname, hmethod, h1, h2, h3, if_true, if_false, hlen]

theorem Handler_other (db : DB) (r : Request) (ok : Bool) (first T : String)
    (rest : List String) (hpath : Split r.Path = first :: T :: rest) (hname : T ≠ "")
    (h1 : r.Method ≠ "GET") (h2 : r.Method ≠ "POST") (h3 : r.Method ≠ "PUT")
    (h4 : r.Method ≠ "DELETE") :
    Handler db r ok =
      (((⟨db, [], [], none⟩ : World).SetHeader "Content-Type" "application/json").WriteHeader
        StatusMethodNotAllowed).Write
        (NewResponseError "Unknown method. Use instead GET, POST, PUT or DELETE.") := by
  simp only [Handler, hpath, hname, h1, h2, h3, h4, if_false]

/-! ## C1: positional delete is an exact splice -/

/-- C1: for every map, every table `T` whose sequence is `l` and every position
`p < l.length`, the request DELETE /T/p with a succeeding `WriteDB` raises no
fault, responds 200 "Data deleted", and leaves `T` holding `l` without its
element at index `p`: one element fewer, the elements before `p` where they
were, every element after `p` one position earlier; every other table is
unchanged. -/
theorem DeleteFromPosition_exact_splice (db : DB) (r : Request) (first T pos : String)
    (rest : List String) (l : List Json) (p : Nat)
    (hmethod : r.Method = "DELETE")
    (hpath : Split r.Path = first :: T :: pos :: rest)
    (hname : T ≠ "")
    (hpos : Atoi pos = some (p : Int))
    (htable : (db.get T).toList = l)
    (hp : p < l.length) :
    (Handler db r true).fault = none ∧
    (Handler db r true).w =
      [WCall.SetHeader "Content-Type" "application/json", WCall.WriteHeader 200,
        WCall.Write (Payload.text "Data deleted")] ∧
    (∃ l', (Handler db r true).db T = some (Slice.mk l') ∧
      l' = l.take p ++ l.drop (p + 1) ∧
      l'.length + 1 = l.length ∧
      (∀ i, i < p → l'[i]? = l[i]?) ∧
      (∀ i, p ≤ i → l'[i]? = l[i + 1]?)) ∧
    (∀ T', T' ≠ T → (Handler db r true).db T' = db T') := by
  subst htable
  have hne : ¬ (pos :: rest = []) := by simp
  have hp' : p < (((⟨db, [], [], none⟩ : World).SetHeader "Content-Type"
      "application/json").db.get T).toList.length := hp
  rw [Handler_DELETE db r true first T (pos :: rest) hmethod hpath hname, if_neg hne,
    DeleteFromPosition_inRange _ T first T pos rest p true hpos hp']
  refine ⟨rfl, rfl, ⟨(db.get T).toList.eraseIdx p, ?_, ?_, ?_, ?_, ?_⟩, ?_⟩
  · simp [World.WriteHeader, World.Write, World.SetHeader, DB.set]
  · exact List.eraseIdx_eq_take_drop_succ _ _
  · rw [List.length_eraseIdx_of_lt hp]; omega
  · intro i hi
    exact List.getElem?_eraseIdx_of_lt _ _ _ hi
  · intro i hi
    exact List.getElem?_eraseIdx_of_ge _ _ _ hi
  · intro T' hT'
    simp [World.WriteHeader, World.Write, World.SetHeader, DB.set, hT']

/-- C1 at the table `[recA, recB, recC]`: DELETE /t/1 leaves `[recA, recC]`. -/
theorem DeleteFromPosition_exact_splice_witness :
    (Handler sampleDB ⟨"DELETE", "/t/1", none⟩ true).fault = none ∧
    (Handler sampleDB ⟨"DELETE", "/t/1", none⟩ true).w =
      [WCall.SetHeader "Content-Type" "application/json", WCall.WriteHeader 200,
        WCall.Write (Payload.text "Data deleted")] ∧
    (Handler sampleDB ⟨"DELETE", "/t/1", none⟩ true).db "t" = some (Slice.mk [recA, recC]) := by
  obtain ⟨h1, h2, ⟨l', h3, h4, _⟩, _⟩ :=
    DeleteFromPosition_exact_splice sampleDB ⟨"DELETE", "/t/1", none⟩ "" "t" "1" []
      [recA, recB, recC] 1 rfl (by decide) (by decide) (by decide) rfl (by decide)
  refine ⟨h1, h2, ?_⟩
  rw [h3, h4]
  rfl

/-! ## C3: a position at or past the end -/

/-- C3: for every world, every table name `T` (present or absent, the absent
table having length 0) and every position `p ≥ len(db[T])`, each of
`GetFromPosition`, `PutData` and `DeleteFromPosition` writes status 404 with an
`error_message` body and nothing else, leaves the map as it was, does not call
`WriteDB`, and raises no fault. So a request GET /T/p on an existing table,
PUT /T/p with a body other than null, or DELETE /T/p is answered 404 by
`Handler`, with the map unchanged and no call of `WriteDB`. -/
theorem position_past_end_not_found (s : World) (dat : Json) (T a b pos : String)
    (rest : List String) (p : Int) (ok : Bool)
    (hpos : Atoi pos = some p) (hp : len (s.db.get T) ≤ p) :
    (∀ out ∈ [GetFromPosition s T (a :: b :: pos :: rest),
              PutData s dat T (a :: b :: pos :: rest) ok,
              DeleteFromPosition s T (a :: b :: pos :: rest) ok],
      out.w = s.w ++ [WCall.WriteHeader 404,
        WCall.Write
          (Payload.error "Position is bigger than the number of elements in the table")] ∧
      out.db = s.db ∧ out.writeDBCalls = s.writeDBCalls ∧ out.fault = s.fault) ∧
    (∀ r : Request, Split r.Path = a :: T :: pos :: rest → T ≠ "" →
      ((r.Method = "GET" ∧ s.db.exists T = true) ∨
        (r.Method = "PUT" ∧ ∃ body, r.Body = some body ∧ body.isNil = false) ∨
        r.Method = "DELETE") →
      Handler s.db r ok =
        ⟨s.db, [WCall.SetHeader "Content-Type" "application/json", WCall.WriteHeader 404,
          WCall.Write
            (Payload.error "Position is bigger than the number of elements in the table")],
          [], none⟩) := by
  obtain ⟨hg, hput, hdel⟩ := position_outOfRange s dat T a b pos rest p ok hpos hp
  refine ⟨?_, ?_⟩
  · intro out hout
    simp only [List.mem_cons, List.mem_singleton, List.mem_nil_iff, or_false] at hout
    rcases hout with h | h | h
    · rw [h, hg]
      simp [World.WriteHeader, World.Write, StatusNotFound, NewResponseError]
    · rw [h, hput]
      simp [World.WriteHeader, World.Write, StatusNotFound, NewResponseError]
    · rw [h, hdel]
      simp [World.WriteHeader, World.Write, StatusNotFound, NewResponseError]
  · intro r hpath hname hreq
    have hp' : len (((⟨s.db, [], [], none⟩ : World).SetHeader "Content-Type"
        "application/json").db.get T) ≤ p := hp
    rcases hreq with ⟨hm, hex⟩ | ⟨hm, body, hbody, hnil⟩ | hm
    · rw [Handler_GET s.db r ok a T (pos :: rest) hm hpath hname]
      simp only [hex, Bool.true_eq_false, if_false, reduceCtorEq]
      rw [(position_outOfRange _ dat T a T pos rest p ok hpos hp').1]
      rfl
    · rw [Handler_PUT s.db r ok a T (pos :: rest) hm hpath hname, hbody]
      simp only [hnil, Bool.false_eq_true, if_false]
      rw [(position_outOfRange _ body T a T pos rest p ok hpos hp').2.1]
      rfl
    · rw [Handler_DELETE s.db r ok a T (pos :: rest) hm hpath hname, if_neg (by simp),
        (position_outOfRange _ dat T a T pos rest p ok hpos hp').2.2]
      rfl

/-- C3 at position 3 of the three-element table `t` (one past the end) and at
position 0 of the absent table `u`. -/
theorem position_past_end_not_found_witness :
    (DeleteFromPosition sampleWorld "t" ["", "t", "3"] true).w =
      [WCall.WriteHeader 404,
        WCall.Write
          (Payload.error "Position is bigger than the number of elements in the table")] ∧
    (DeleteFromPosition sampleWorld "t" ["", "t", "3"] true).writeDBCalls = [] ∧
    (PutData sampleWorld recA "u" ["", "u", "0"] true).db = sampleDB ∧
    (GetFromPosition sampleWorld "u" ["", "u", "0"]).w =
      [WCall.WriteHeader 404,
        WCall.Write
          (Payload.error "Position is bigger than the number of elements in the table")] ∧
    Handler sampleDB ⟨"DELETE", "/t/3", none⟩ true =
      ⟨sampleDB, [WCall.SetHeader "Content-Type" "application/json", WCall.WriteHeader 404,
        WCall.Write
          (Payload.error "Position is bigger than the number of elements in the table")],
        [], none⟩ := by
  have h1 := position_past_end_not_found sampleWorld recA "t" "" "t" "3" [] 3 true
    (by decide) (by decide)
  have h2 := position_past_end_not_found sampleWorld recA "u" "" "u" "0" [] 0 true
    (by decide) (by decide)
  refine ⟨?_, ?_, ?_, ?_, ?_⟩
  · exact (h1.1 _ (by simp)).1
  · exact (h1.1 _ (by simp)).2.2.1
  · exact (h2.1 (PutData sampleWorld recA "u" ["", "u", "0"] true) (by simp)).2.1
  · exact (h2.1 (GetFromPosition sampleWorld "u" ["", "u", "0"]) (by simp)).1
  · exact h1.2 ⟨"DELETE", "/t/3", none⟩ (by decide) (by decide) (Or.inr (Or.inr rfl))

/-! ## C5: append -/

/-- The map after `PostData`, whatever `WriteDB` answers. -/
theorem PostData_db (s : World) (dat : Json) (T : String) (ok : Bool) :
    (PostData s dat T ok).db = s.db.set T (Slice.mk ((s.db.get T).toList ++ [dat])) := by
  rw [PostData_eq]
  cases ok <;> rfl

theorem DeleteTable_existing (s : World) (D : String) (ok : Bool) (hD : s.db.exists D = true) :
    DeleteTable s D ok =
      if ok = false then
        (({ s with db := s.db.delete D,
                   writeDBCalls := s.writeDBCalls ++ [s.db.delete D] } : World).WriteHeader
          StatusInternalServerError).Write (NewResponseError "Error writing data in db")
      else
        (({ s with db := s.db.delete D,
                   writeDBCalls := s.writeDBCalls ++ [s.db.delete D] } : World).WriteHeader
          StatusOK).Write (Payload.text "Table deleted") := by
  simp [DeleteTable, hD, WriteDB]

theorem DeleteTable_absent (s : World) (D : String) (ok : Bool) (hD : s.db.exists D = false) :
    DeleteTable s D ok =
      (s.WriteHeader StatusNotFound).Write (NewResponseError "Table does not exist") := by
  simp [DeleteTable, hD]

theorem GetPositionNumber_cases (s : World) (params : List String) :
    (∃ n, GetPositionNumber s params = (s, n)) ∨
    (∃ msg, GetPositionNumber s params =
      ((s.WriteHeader StatusBadRequest).Write (NewResponseError msg), -1)) := by
  match params with
  | [] => exact Or.inr ⟨_, rfl⟩
  | [_] => exact Or.inr ⟨_, rfl⟩
  | [_, _] => exact Or.inr ⟨_, rfl⟩
  | x :: y :: z :: rest =>
    cases hz : Atoi z with
    | none => exact Or.inr ⟨_, GetPositionNumber_unparsed s x y z rest hz⟩
    | some n => exact Or.inl ⟨n, GetPositionNumber_parsed s x y z rest n hz⟩

theorem GetFromPosition_db (s : World) (T : String) (params : List String) :
    (GetFromPosition s T params).db = s.db := by
  rcases GetPositionNumber_cases s params with ⟨n, h⟩ | ⟨msg, h⟩
  · simp only [GetFromPosition, h]
    split_ifs
    · rfl
    · rfl
    · cases (s.db.get T).index n <;> rfl
  · simp only [GetFromPosition, h, if_true]
    rfl

theorem PutData_keys (s : World) (dat : Json) (T : String) (params : List String) (ok : Bool)
    (k : String) : ((PutData s dat T params ok).db k).isSome = (s.db k).isSome := by
  rcases GetPositionNumber_cases s params with ⟨n, h⟩ | ⟨msg, h⟩
  · simp only [PutData, h]
    split_ifs with h1 h2
    · rfl
    · rfl
    · have hn : 0 ≤ n ∨ n < 0 := by omega
      rcases hn with hn | hn
      · have hlt : n.toNat < (s.db.get T).toList.length := by
          rw [len_eq] at h2; omega
        have hcast : ((n.toNat : Nat) : Int) = n := by omega
        have hset := Slice.setIndex_natCast (s.db.get T) n.toNat dat hlt
        rw [hcast] at hset
        rw [hset]
        have hex := DB.eq_some_of_pos s.db T (by omega)
        cases ok <;>
          · simp only [WriteDB, World.WriteHeader, World.Write, Bool.true_eq_false, if_true,
              if_false]
            by_cases hk : k = T
            · subst hk; rw [DB.set_same, hex]; rfl
            · rw [DB.set_other _ _ _ _ hk]
      · rw [Slice.setIndex_of_neg _ _ _ hn]
        rfl
  · simp only [PutData, h, if_true]
    rfl

theorem DeleteFromPosition_keys (s : World) (T : String) (params : List String) (ok : Bool)
    (k : String) : ((DeleteFromPosition s T params ok).db k).isSome = (s.db k).isSome := by
  rcases GetPositionNumber_cases s params with ⟨n, h⟩ | ⟨msg, h⟩
  · simp only [DeleteFromPosition, h]
    split_ifs with h1 h2
    · rfl
    · rfl
    · have hn : 0 ≤ n ∨ n < 0 := by omega
      rcases hn with hn | hn
      · have hlt : n.toNat < (s.db.get T).toList.length := by
          rw [len_eq] at h2; omega
        have hcast : ((n.toNat : Nat) : Int) = n := by omega
        obtain ⟨front, back, hf, hb, -⟩ := Slice.splice_natCast (s.db.get T) n.toNat hlt
        rw [hcast] at hf hb
        rw [hf, hb]
        have hex := DB.eq_some_of_pos s.db T (by omega)
        cases ok <;>
          · simp only [WriteDB, World.WriteHeader, World.Write, Bool.true_eq_false, if_true,
              if_false]
            by_cases hk : k = T
            · subst hk; rw [DB.set_same, hex]; rfl
            · rw [DB.set_other _ _ _ _ hk]
      · rw [Slice.sliceTo_of_neg _ _ hn]
        rfl
  · simp only [DeleteFromPosition, h, if_true]
    rfl

/-- When `reachesPostData` holds, `Handler` is the call of `PostData` on the
decoded body. -/
theorem Handler_of_reachesPostData (db : DB) (r : Request) (ok : Bool)
    (h : reachesPostData r = true) :
    ∃ T dat, r.Body = some dat ∧
      Handler db r ok =
        PostData ⟨db, [WCall.SetHeader "Content-Type" "application/json"], [], none⟩ dat T
          ok := by
  unfold reachesPostData at h
  cases hsplit : Split r.Path with
  | nil => rw [hsplit] at h; simp at h
  | cons first xs =>
    cases xs with
    | nil => rw [hsplit] at h; simp at h
    | cons T rest =>
      rw [hsplit] at h
      cases hbody : r.Body with
      | none => rw [hbody] at h; simp at h
      | some dat =>
        rw [hbody] at h
        simp only [Bool.and_eq_true, bne_iff_ne, ne_eq, beq_iff_eq, Bool.not_eq_true',
          Bool.not_eq_eq_eq_not, Bool.not_true] at h
        obtain ⟨⟨hname, hm⟩, hnil⟩ := h
        refine ⟨T, dat, rfl, ?_⟩
        rw [Handler_POST db r ok first T rest hm hsplit hname, hbody]
        simp only [hnil, Bool.false_eq_true, if_false]
        rfl

/-- When `reachesDeleteTable` holds, `Handler` is the call of `DeleteTable`. -/
theorem Handler_of_reachesDeleteTable (db : DB) (r : Request) (ok : Bool)
    (h : reachesDeleteTable r = true) :
    ∃ T, Handler db r ok =
      DeleteTable ⟨db, [WCall.SetHeader "Content-Type" "application/json"], [], none⟩ T ok := by
  unfold reachesDeleteTable at h
  cases hsplit : Split r.Path with
  | nil => rw [hsplit] at h; simp at h
  | cons first xs =>
    cases xs with
    | nil => rw [hsplit] at h; simp at h
    | cons T rest =>
      cases rest with
      | cons x rest' => rw [hsplit] at h; simp at h
      | nil =>
        rw [hsplit] at h
        simp only [Bool.and_eq_true, bne_iff_ne, ne_eq, beq_iff_eq] at h
        obtain ⟨hname, hm⟩ := h
        refine ⟨T, ?_⟩
        rw [Handler_DELETE db r ok first T [] hm hsplit hname, if_pos rfl]
        rfl

/-- A request that reaches neither `PostData` nor `DeleteTable` leaves every
table name present or absent as it was. -/
theorem Handler_keys (db : DB) (r : Request) (ok : Bool)
    (hpost : reachesPostData r = false) (hdel : reachesDeleteTable r = false) (k : String) :
    ((Handler db r ok).db k).isSome = (db k).isSome := by
  cases hsplit : Split r.Path with
  | nil => rw [Handler_panic_of_short db r ok (by simp [hsplit])]; rfl
  | cons first xs =>
    cases xs with
    | nil => rw [Handler_panic_of_short db r ok (by simp [hsplit])]; rfl
    | cons T rest =>
      by_cases hname : T = ""
      · subst hname
        rw [Handler_empty_name db r ok first rest hsplit]; rfl
      · by_cases hget : r.Method = "GET"
        · rw [Handler_GET db r ok first T rest hget hsplit hname]
          split_ifs
          · rfl
          · rfl
          · rw [GetFromPosition_db]; rfl
        · by_cases hpo : r.Method = "POST"
          · rw [Handler_POST db r ok first T rest hpo hsplit hname]
            cases hbody : r.Body with
            | none => rfl
            | some dat =>
              cases hnil : dat.isNil with
              | true => simp only [hnil, if_true]; rfl
              | false =>
                exfalso
                simp [reachesPostData, hsplit, hbody, hname, hpo, hnil] at hpost
          · by_cases hput : r.Method = "PUT"
            · rw [Handler_PUT db r ok first T rest hput hsplit hname]
              cases hbody : r.Body with
              | none => rfl
              | some dat =>
                cases hnil : dat.isNil with
                | true => simp only [hnil, if_true]; rfl
                | false =>
                  simp only [hnil, Bool.false_eq_true, if_false]
                  rw [PutData_keys]; rfl
            · by_cases hde : r.Method = "DELETE"
              · rw [Handler_DELETE db r ok first T rest hde hsplit hname]
                cases rest with
                | nil =>
                  exfalso
                  simp [reachesDeleteTable, hsplit, hname, hde] at hdel
                | cons pos rest' =>
                  rw [if_neg (by simp), DeleteFromPosition_keys]; rfl
              · rw [Handler_other db r ok first T rest hsplit hname hget hpo hput hde]; rfl

/-- C9: a request that reaches neither `PostData` nor `DeleteTable` (every GET,
every PUT, every positional DELETE, every request turned away before those two
calls, and one that ends in a fault) leaves the set of table names as it was;
and when DELETE /T/0 removes the only record of `T`, `T` stays present with
the empty sequence, so GET /T afterwards answers 200 with an empty array. -/
theorem table_existence_only_changed_by_append_and_DeleteTable (db : DB) (r : Request)
    (ok : Bool) :
    (reachesPostData r = false → reachesDeleteTable r = false →
      ∀ T, ((Handler db r ok).db T).isSome = (db T).isSome) ∧
    (∀ first T pos rest v, r.Method = "DELETE" → Split r.Path = first :: T :: pos :: rest →
      T ≠ "" → Atoi pos = some 0 → (db.get T).toList = [v] →
      (Handler db r ok).db T = some (Slice.mk []) ∧
      ∀ (g : Request) (ok' : Bool) (first' : String), g.Method = "GET" →
        Split g.Path = [first', T] →
        (Handler (Handler db r ok).db g ok').w =
          [WCall.SetHeader "Content-Type" "application/json", WCall.WriteHeader 200,
            WCall.Write (Payload.table (Slice.mk []))]) := by
  refine ⟨fun hpost hdel T => Handler_keys db r ok hpost hdel T, ?_⟩
  intro first T pos rest v hmethod hpath hname hpos htable
  have hp : 0 < (((⟨db, [], [], none⟩ : World).SetHeader "Content-Type"
      "application/json").db.get T).toList.length := by
    show 0 < (db.get T).toList.length
    rw [htable]; simp
  have hdb : (Handler db r ok).db T = some (Slice.mk []) := by
    rw [Handler_DELETE db r ok first T (pos :: rest) hmethod hpath hname, if_neg (by simp),
      DeleteFromPosition_inRange _ T first T pos rest 0 ok hpos hp]
    have hl : (((⟨db, [], [], none⟩ : World).SetHeader "Content-Type"
        "application/json").db.get T).toList = [v] := htable
    cases ok <;> simp [World.WriteHeader, World.Write, DB.set, hl]
  refine ⟨hdb, ?_⟩
  intro g ok' first' hg hgpath
  have hex : (Handler db r ok).db.exists T = true := by
    simp [DB.exists, hdb]
  rw [Handler_GET (Handler db r ok).db g ok' first' T [] hg hgpath hname]
  simp [hex, GetAll, MarshalSlice, World.SetHeader, World.WriteHeader, World.Write, DB.get, hdb,
    StatusOK]

/-- C9 on the one-record table `u`: GET /t/0 keeps the table names; DELETE /u/0
leaves `u` present and empty, and GET /u then answers 200 with `[]`. -/
theorem table_existence_only_changed_by_append_and_DeleteTable_witness :
    ((Handler sampleDB ⟨"GET", "/t/0", none⟩ true).db "t").isSome = true ∧
    (Handler (DB.set emptyDB "u" (Slice.mk [recA])) ⟨"DELETE", "/u/0", none⟩ true).db "u" =
      some (Slice.mk []) ∧
    (Handler (Handler (DB.set emptyDB "u" (Slice.mk [recA])) ⟨"DELETE", "/u/0", none⟩ true).db
        ⟨"GET", "/u", none⟩ true).w =
      [WCall.SetHeader "Content-Type" "application/json", WCall.WriteHeader 200,
        WCall.Write (Payload.table (Slice.mk []))] := by
  have h1 := (table_existence_only_changed_by_append_and_DeleteTable sampleDB
    ⟨"GET", "/t/0", none⟩ true).1 (by decide) (by decide) "t"
  have h2 := (table_existence_only_changed_by_append_and_DeleteTable
    (DB.set emptyDB "u" (Slice.mk [recA])) ⟨"DELETE", "/u/0", none⟩ true).2 "" "u" "0" [] recA
    rfl (by decide) (by decide) (by decide) rfl
  refine ⟨?_, h2.1, ?_⟩
  · rw [h1]; rfl
  · exact h2.2 ⟨"GET", "/u", none⟩ true "" rfl (by decide)

/-! ## C2, C10: a negative position -/

theorem GetFromPosition_negative (s : World) (T a b pos : String) (rest : List String) (n : Int)
    (hpos : Atoi pos = some n) (hn : n < 0) :
    GetFromPosition s T (a :: b :: pos :: rest) =
      if n = -1 then s else s.panic Fault.indexOutOfRange := by
  have h0 : (0 : Int) ≤ len (s.db.get T) := by rw [len_eq]; omega
  have h2 : ¬ (n ≥ len (s.db.get T)) := by omega
  simp only [GetFromPosition, GetPositionNumber_parsed s a b pos rest n hpos, h2, if_false,
    Slice.index_of_neg _ _ hn]

theorem PutData_negative (s : World) (dat : Json) (T a b pos : String) (rest : List String)
    (n : Int) (ok : Bool) (hpos : Atoi pos = some n) (hn : n < 0) :
    PutData s dat T (a :: b :: pos :: rest) ok =
      if n = -1 then s else s.panic Fault.indexOutOfRange := by
  have h0 : (0 : Int) ≤ len (s.db.get T) := by rw [len_eq]; omega
  have h2 : ¬ (n ≥ len (s.db.get T)) := by omega
  simp only [PutData, GetPositionNumber_parsed s a b pos rest n hpos, h2, if_false,
    Slice.setIndex_of_neg _ _ _ hn]

theorem DeleteFromPosition_negative (s : World) (T a b pos : String) (rest : List String)
    (n : Int) (ok : Bool) (hpos : Atoi pos = some n) (hn : n < 0) :
    DeleteFromPosition s T (a :: b :: pos :: rest) ok =
      if n = -1 then s else s.panic Fault.sliceBoundsOutOfRange := by
  have h0 : (0 : Int) ≤ len (s.db.get T) := by rw [len_eq]; omega
  have h2 : ¬ (n ≥ len (s.db.get T)) := by omega
  simp only [DeleteFromPosition, GetPositionNumber_parsed s a b pos rest n hpos, h2, if_false,
    Slice.sliceTo_of_neg _ _ hn]

/-- C2 fails on the code: for every map, every table name `T` and every position
segment that `strconv.Atoi` reads as a negative integer, the requests GET /T/s
(on an existing table), PUT /T/s (with a body other than null) and DELETE /T/s
make no call of `WriteHeader` and none of `Write`: the content type is all
that reaches the writer, so no status 400 and no `error_message` body. -/
theorem negative_position_writes_no_400 (db : DB) (r : Request) (first T pos : String)
    (rest : List String) (n : Int) (ok : Bool)
    (hpath : Split r.Path = first :: T :: pos :: rest) (hname : T ≠ "")
    (hpos : Atoi pos = some n) (hn : n < 0)
    (hreq : (r.Method = "GET" ∧ db.exists T = true) ∨
      (r.Method = "PUT" ∧ ∃ dat, r.Body = some dat ∧ dat.isNil = false) ∨
      r.Method = "DELETE") :
    (Handler db r ok).w = [WCall.SetHeader "Content-Type" "application/json"] ∧
    (Handler db r ok).db = db := by
  rcases hreq with ⟨hm, hex⟩ | ⟨hm, dat, hbody, hnil⟩ | hm
  · rw [Handler_GET db r ok first T (pos :: rest) hm hpath hname]
    simp only [hex, Bool.true_eq_false, if_false, reduceCtorEq]
    rw [GetFromPosition_negative _ T first T pos rest n hpos hn]
    split_ifs <;> exact ⟨rfl, rfl⟩
  · rw [Handler_PUT db r ok first T (pos :: rest) hm hpath hname, hbody]
    simp only [hnil, Bool.false_eq_true, if_false]
    rw [PutData_negative _ dat T first T pos rest n ok hpos hn]
    split_ifs <;> exact ⟨rfl, rfl⟩
  · rw [Handler_DELETE db r ok first T (pos :: rest) hm hpath hname, if_neg (by simp),
      DeleteFromPosition_negative _ T first T pos rest n ok hpos hn]
    split_ifs <;> exact ⟨rfl, rfl⟩

/-- C2 at GET on table `t` with the position segment `-1`: the handler returns
having written neither status nor body. -/
theorem negative_position_writes_no_400_witness :
    (Handler sampleDB ⟨"GET", "/t/-1", none⟩ true).w =
      [WCall.SetHeader "Content-Type" "application/json"] ∧
    (Handler sampleDB ⟨"GET", "/t/-1", none⟩ true).fault = none := by
  refine ⟨(negative_position_writes_no_400 sampleDB ⟨"GET", "/t/-1", none⟩ "" "t" "-1" [] (-1)
    true (by decide) (by decide) (by decide) (by decide) (Or.inl ⟨rfl, rfl⟩)).1, rfl⟩

/-- C10 fails on the code: for every map, every table name `T` and every
position segment that `strconv.Atoi` reads as an integer `n ≤ -2`, the requests
GET /T/s (on an existing table), PUT /T/s (with a body other than null) and
DELETE /T/s end in a run-time fault (index or slice bounds out of range), and
no status and no body has been written when it is raised. -/
theorem position_below_minus_one_faults (db : DB) (r : Request) (first T pos : String)
    (rest : List String) (n : Int) (ok : Bool)
    (hpath : Split r.Path = first :: T :: pos :: rest) (hname : T ≠ "")
    (hpos : Atoi pos = some n) (hn : n ≤ -2)
    (hreq : (r.Method = "GET" ∧ db.exists T = true) ∨
      (r.Method = "PUT" ∧ ∃ dat, r.Body = some dat ∧ dat.isNil = false) ∨
      r.Method = "DELETE") :
    (Handler db r ok).fault =
      some (if r.Method = "DELETE" then Fault.sliceBoundsOutOfRange
            else Fault.indexOutOfRange) ∧
    (Handler db r ok).w = [WCall.SetHeader "Content-Type" "application/json"] := by
  have hn0 : n < 0 := by omega
  have hn1 : ¬ (n = -1) := by omega
  rcases hreq with ⟨hm, hex⟩ | ⟨hm, dat, hbody, hnil⟩ | hm
  · have hd : ¬ ("GET" = "DELETE") := by decide
    rw [Handler_GET db r ok first T (pos :: rest) hm hpath hname]
    simp only [hex, Bool.true_eq_false, if_false, reduceCtorEq]
    rw [GetFromPosition_negative _ T first T pos rest n hpos hn0, if_neg hn1, hm, if_neg hd]
    exact ⟨rfl, rfl⟩
  · have hd : ¬ ("PUT" = "DELETE") := by decide
    rw [Handler_PUT db r ok first T (pos :: rest) hm hpath hname, hbody]
    simp only [hnil, Bool.false_eq_true, if_false]
    rw [PutData_negative _ dat T first T pos rest n ok hpos hn0, if_neg hn1, hm, if_neg hd]
    exact ⟨rfl, rfl⟩
  · rw [Handler_DELETE db r ok first T (pos :: rest) hm hpath hname, if_neg (by simp),
      DeleteFromPosition_negative _ T first T pos rest n ok hpos hn0, if_neg hn1, hm,
      if_pos rfl]
    exact ⟨rfl, rfl⟩

/-- C10 at DELETE on table `t` with the position segment `-2`: slice bounds out
of range. -/
theorem position_below_minus_one_faults_witness :
    (Handler sampleDB ⟨"DELETE", "/t/-2", none⟩ true).fault =
      some Fault.sliceBoundsOutOfRange := by
  have h := (position_below_minus_one_faults sampleDB ⟨"DELETE", "/t/-2", none⟩ "" "t" "-2" []
    (-2) true (by decide) (by decide) (by decide) (by decide) (Or.inr (Or.inr rfl))).1
  rw [h]
  rfl

/-! ## C4, C7: a body that decodes to null -/

theorem Handler_POST_null (db : DB) (r : Request) (first T : String)
    (rest : List String) (ok : Bool)
    (hmethod : r.Method = "POST") (hpath : Split r.Path = first :: T :: rest)
    (hname : T ≠ "") (hbody : r.Body = some Json.null) :
    Handler db r ok =
      ⟨db, [WCall.SetHeader "Content-Type" "application/json"], [], none⟩ := by
  rw [Handler_POST db r ok first T rest hmethod hpath hname, hbody]
  rfl

/-- C4 fails on the code: for every map and every non-empty table name `T`, a
request POST /T whose body decodes to null never reaches `PostData`: the map is
unchanged, `WriteDB` is not called, and neither a status nor a body is written
(the content type is all that reaches the writer). -/
theorem null_body_is_not_appended (db : DB) (r : Request) (first T : String)
    (rest : List String) (ok : Bool)
    (hmethod : r.Method = "POST") (hpath : Split r.Path = first :: T :: rest)
    (hname : T ≠ "") (hbody : r.Body = some Json.null) :
    Handler db r ok =
      ⟨db, [WCall.SetHeader "Content-Type" "application/json"], [], none⟩ :=
  Handler_POST_null db r first T rest ok hmethod hpath hname hbody

/-- C4 at POST /t with the body `null` on the table `[recA, recB, recC]`: the
table is as it was and nothing is answered. -/
theorem null_body_is_not_appended_witness :
    (Handler sampleDB ⟨"POST", "/t", some Json.null⟩ true).db "t" =
      some (Slice.mk [recA, recB, recC]) ∧
    (Handler sampleDB ⟨"POST", "/t", some Json.null⟩ true).w =
      [WCall.SetHeader "Content-Type" "application/json"] ∧
    (Handler sampleDB ⟨"POST", "/t", some Json.null⟩ true).writeDBCalls = [] := by
  rw [null_body_is_not_appended sampleDB ⟨"POST", "/t", some Json.null⟩ "" "t" [] true rfl
    (by decide) (by decide) rfl]
  exact ⟨rfl, rfl, rfl⟩

/-- C7 fails on the code for the record null: for every map and existing table
`T`, after DELETE /T a request POST /T whose body decodes to null leaves `T`
absent (not the one-element table `[null]`) and answers nothing. -/
theorem null_record_does_not_recreate_table (db : DB) (d p : Request) (first first' T : String)
    (ok ok' : Bool)
    (hd : d.Method = "DELETE") (hdpath : Split d.Path = [first, T]) (hname : T ≠ "")
    (hex : db.exists T = true)
    (hp : p.Method = "POST") (hppath : Split p.Path = [first', T])
    (hbody : p.Body = some Json.null) :
    (Handler db d ok).db T = none ∧
    (Handler (Handler db d ok).db p ok').db T = none ∧
    (Handler (Handler db d ok).db p ok').w =
      [WCall.SetHeader "Content-Type" "application/json"] := by
  have h1 : (Handler db d ok).db T = none := by
    rw [Handler_DELETE db d ok first T [] hd hdpath hname, if_pos rfl,
      DeleteTable_existing _ T ok hex]
    cases ok <;> simp [World.WriteHeader, World.Write, World.SetHeader, DB.delete]
  rw [Handler_POST_null (Handler db d ok).db p first' T [] ok' hp hppath hname hbody]
  exact ⟨h1, h1, rfl⟩

/-- C7 on the table `t`: DELETE /t, then POST /t with the body `null`. -/
theorem null_record_does_not_recreate_table_witness :
    (Handler (Handler sampleDB ⟨"DELETE", "/t", none⟩ true).db
      ⟨"POST", "/t", some Json.null⟩ true).db "t" = none := by
  exact (null_record_does_not_recreate_table sampleDB ⟨"DELETE", "/t", none⟩
    ⟨"POST", "/t", some Json.null⟩ "" "" "t" true true rfl (by decide) (by decide) rfl rfl
    (by decide) rfl).2.1

/-! ## What holds of the rejected claims on the remaining inputs -/

/-- A position segment that `strconv.Atoi` rejects (such as `abc` or the empty
segment) is answered 400 with an `error_message` body by GET on an existing
table, PUT with a body other than null, and DELETE; the map is unchanged,
`WriteDB` is not called and no fault is raised. -/
theorem unparsable_position_bad_request (db : DB) (r : Request) (first T pos : String)
    (rest : List String) (ok : Bool)
    (hpath : Split r.Path = first :: T :: pos :: rest) (hname : T ≠ "")
    (hpos : Atoi pos = none)
    (hreq : (r.Method = "GET" ∧ db.exists T = true) ∨
      (r.Method = "PUT" ∧ ∃ dat, r.Body = some dat ∧ dat.isNil = false) ∨
      r.Method = "DELETE") :
    Handler db r ok =
      ⟨db, [WCall.SetHeader "Content-Type" "application/json", WCall.WriteHeader 400,
        WCall.Write (Payload.error "Position could not be converted to int")], [], none⟩ := by
  rcases hreq with ⟨hm, hex⟩ | ⟨hm, dat, hbody, hnil⟩ | hm
  · rw [Handler_GET db r ok first T (pos :: rest) hm hpath hname]
    simp only [hex, Bool.true_eq_false, if_false, reduceCtorEq]
    simp only [GetFromPosition, GetPositionNumber_unparsed _ first T pos rest hpos, if_true]
    rfl
  · rw [Handler_PUT db r ok first T (pos :: rest) hm hpath hname, hbody]
    simp only [hnil, Bool.false_eq_true, if_false]
    simp only [PutData, GetPositionNumber_unparsed _ first T pos rest hpos, if_true]
    rfl
  · rw [Handler_DELETE db r ok first T (pos :: rest) hm hpath hname, if_neg (by simp)]
    simp only [DeleteFromPosition, GetPositionNumber_unparsed _ first T pos rest hpos, if_true]
    rfl

/-- The segments `abc` and the empty segment on the table `t`. -/
theorem unparsable_position_bad_request_witness :
    Handler sampleDB ⟨"GET", "/t/abc", none⟩ true =
      ⟨sampleDB, [WCall.SetHeader "Content-Type" "application/json", WCall.WriteHeader 400,
        WCall.Write (Payload.error "Position could not be converted to int")], [], none⟩ ∧
    Handler sampleDB ⟨"DELETE", "/t/", none⟩ true =
      ⟨sampleDB, [WCall.SetHeader "Content-Type" "application/json", WCall.WriteHeader 400,
        WCall.Write (Payload.error "Position could not be converted to int")], [], none⟩ :=
  ⟨unparsable_position_bad_request sampleDB ⟨"GET", "/t/abc", none⟩ "" "t" "abc" [] true
      (by decide) (by decide) (by decide) (Or.inl ⟨rfl, rfl⟩),
    unparsable_position_bad_request sampleDB ⟨"DELETE", "/t/", none⟩ "" "t" "" [] true
      (by decide) (by decide) (by decide) (Or.inr (Or.inr rfl))⟩

/-- A request POST /T with a non-empty table name: a body that decodes to a
value other than null is handed to `PostData` and becomes the last element of
`T`, with 200 "Data appended" when `WriteDB` succeeds; a body that cannot be
decoded is answered 400 and changes nothing. -/
theorem POST_appends_decoded_body (db : DB) (r : Request) (first T : String)
    (rest : List String) (ok : Bool)
    (hmethod : r.Method = "POST") (hpath : Split r.Path = first :: T :: rest)
    (hname : T ≠ "") :
    (∀ dat, r.Body = some dat → dat.isNil = false →
      Handler db r ok =
        PostData ⟨db, [WCall.SetHeader "Content-Type" "application/json"], [], none⟩ dat T ok ∧
      (Handler db r ok).db T = some (Slice.mk ((db.get T).toList ++ [dat])) ∧
      (ok = true → (Handler db r ok).w =
        [WCall.SetHeader "Content-Type" "application/json", WCall.WriteHeader 200,
          WCall.Write (Payload.text "Data appended")])) ∧
    (r.Body = none →
      Handler db r ok =
        ⟨db, [WCall.SetHeader "Content-Type" "application/json", WCall.WriteHeader 400,
          WCall.Write (Payload.error "Error decoding data")], [], none⟩) := by
  rw [Handler_POST db r ok first T rest hmethod hpath hname]
  refine ⟨?_, ?_⟩
  · intro dat hbody hnil
    rw [hbody]
    simp only [hnil, Bool.false_eq_true, if_false]
    refine ⟨rfl, ?_, ?_⟩
    · rw [PostData_db, DB.set_same]; rfl
    · intro hok
      subst hok
      rfl
  · intro hbody
    rw [hbody]
    rfl

/-- POST /u with the body `recA` on the map without tables. -/
theorem POST_appends_decoded_body_witness :
    (Handler emptyDB ⟨"POST", "/u", some recA⟩ true).db "u" = some (Slice.mk [recA]) ∧
    (Handler emptyDB ⟨"POST", "/u", some recA⟩ true).w =
      [WCall.SetHeader "Content-Type" "application/json", WCall.WriteHeader 200,
        WCall.Write (Payload.text "Data appended")] := by
  obtain ⟨_, h2, h3⟩ := (POST_appends_decoded_body emptyDB ⟨"POST", "/u", some recA⟩ "" "u" []
    true rfl (by decide) (by decide)).1 recA rfl rfl
  exact ⟨h2, h3 rfl⟩

/-- A request DELETE /T with a non-empty table name. On an existing table the
key `T` is removed and every other table is unchanged, so that GET /T
afterwards is answered 404 "Table not found" and POST /T with a body other than
null leaves `T` holding that one record. On an absent table the answer is 404,
the map is unchanged and `WriteDB` is not called. -/
theorem DeleteTable_removes_only_that_table (db : DB) (d : Request) (first T : String)
    (ok : Bool)
    (hd : d.Method = "DELETE") (hdpath : Split d.Path = [first, T]) (hname : T ≠ "") :
    (db.exists T = true →
      (Handler db d ok).db T = none ∧
      (∀ T', T' ≠ T → (Handler db d ok).db T' = db T') ∧
      (∀ (g : Request) (ok' : Bool) (first' : String), g.Method = "GET" →
        Split g.Path = [first', T] →
        Handler (Handler db d ok).db g ok' =
          ⟨(Handler db d ok).db,
            [WCall.SetHeader "Content-Type" "application/json", WCall.WriteHeader 404,
              WCall.Write (Payload.error "Table not found")], [], none⟩) ∧
      (∀ (p : Request) (ok' : Bool) (first' : String) (v : Json), p.Method = "POST" →
        Split p.Path = [first', T] → p.Body = some v → v.isNil = false →
        (Handler (Handler db d ok).db p ok').db T = some (Slice.mk [v]))) ∧
    (db.exists T = false →
      Handler db d ok =
        ⟨db, [WCall.SetHeader "Content-Type" "application/json", WCall.WriteHeader 404,
          WCall.Write (Payload.error "Table does not exist")], [], none⟩) := by
  rw [Handler_DELETE db d ok first T [] hd hdpath hname, if_pos rfl]
  refine ⟨?_, ?_⟩
  · intro hex
    have hex' : ((⟨db, [], [], none⟩ : World).SetHeader "Content-Type"
        "application/json").db.exists T = true := hex
    rw [DeleteTable_existing _ T ok hex']
    have hdb : (if ok = false then
        (({ ((⟨db, [], [], none⟩ : World).SetHeader "Content-Type" "application/json") with
            db := DB.delete db T,
            writeDBCalls := [] ++ [DB.delete db T] } : World).WriteHeader
          StatusInternalServerError).Write (NewResponseError "Error writing data in db")
      else
        (({ ((⟨db, [], [], none⟩ : World).SetHeader "Content-Type" "application/json") with
            db := DB.delete db T,
            writeDBCalls := [] ++ [DB.delete db T] } : World).WriteHeader
          StatusOK).Write (Payload.text "Table deleted")).db = DB.delete db T := by
      cases ok <;> rfl
    have hnone : DB.delete db T T = none := by simp [DB.delete]
    refine ⟨?_, ?_, ?_, ?_⟩
    · exact (congrFun hdb T).trans hnone
    · intro T' hT'
      refine (congrFun hdb T').trans ?_
      simp [DB.delete, hT']
    · intro g ok' first' hg hgpath
      rw [Handler_GET _ g ok' first' T [] hg hgpath hname]
      have hne : DB.exists (DB.delete db T) T = false := by simp [DB.exists, hnone]
      erw [hdb]
      rw [if_pos hne]
      rfl
    · intro p ok' first' v hp hppath hbody hnil
      rw [Handler_POST _ p ok' first' T [] hp hppath hname, hbody]
      simp only [hnil, Bool.false_eq_true, if_false]
      rw [PostData_db, DB.set_same]
      erw [hdb]
      simp [DB.get, hnone, Slice.toList]
  · intro hex
    have hex' : ((⟨db, [], [], none⟩ : World).SetHeader "Content-Type"
        "application/json").db.exists T = false := hex
    rw [DeleteTable_absent _ T ok hex']
    rfl

/-- DELETE /t on the sample map, then GET /t, then POST /t with `recB`. -/
theorem DeleteTable_removes_only_that_table_witness :
    (Handler sampleDB ⟨"DELETE", "/t", none⟩ true).db "t" = none ∧
    (Handler (Handler sampleDB ⟨"DELETE", "/t", none⟩ true).db ⟨"GET", "/t", none⟩ true).w =
      [WCall.SetHeader "Content-Type" "application/json", WCall.WriteHeader 404,
        WCall.Write (Payload.error "Table not found")] ∧
    (Handler (Handler sampleDB ⟨"DELETE", "/t", none⟩ true).db
      ⟨"POST", "/t", some recB⟩ true).db "t" = some (Slice.mk [recB]) := by
  obtain ⟨h1, _, h3, h4⟩ := (DeleteTable_removes_only_that_table sampleDB
    ⟨"DELETE", "/t", none⟩ "" "t" true rfl (by decide) (by decide)).1 rfl
  refine ⟨h1, ?_, h4 ⟨"POST", "/t", some recB⟩ true "" recB rfl (by decide) rfl rfl⟩
  rw [h3 ⟨"GET", "/t", none⟩ true "" rfl (by decide)]

/-! ## Which requests are not answered -/

theorem splitChars_ne_nil (sep : Char) (cs : List Char) : splitChars sep cs ≠ [] := by
  cases cs with
  | nil => simp [splitChars]
  | cons c cs =>
    unfold splitChars
    split_ifs
    · simp
    · cases splitChars sep cs <;> simp

theorem Split_leading_slash (path : String) (cs : List Char)
    (h : path.data = Char.ofNat 47 :: cs) : 2 ≤ (Split path).length := by
  unfold Split
  rw [h, List.length_map]
  have h1 : splitChars (Char.ofNat 47) (Char.ofNat 47 :: cs) =
      [] :: splitChars (Char.ofNat 47) cs := by
    simp [splitChars]
  rw [h1]
  have h2 := splitChars_ne_nil (Char.ofNat 47) cs
  cases hs : splitChars (Char.ofNat 47) cs with
  | nil => exact absurd hs h2
  | cons x xs => simp

theorem GetPositionNumber_shape (s : World) (params : List String) :
    (∃ a b pos rest n, params = a :: b :: pos :: rest ∧ Atoi pos = some n) ∨
    (∃ msg, GetPositionNumber s params =
      ((s.WriteHeader StatusBadRequest).Write (NewResponseError msg), -1)) := by
  match params with
  | [] => exact Or.inr ⟨_, rfl⟩
  | [_] => exact Or.inr ⟨_, rfl⟩
  | [_, _] => exact Or.inr ⟨_, rfl⟩
  | x :: y :: z :: rest =>
    cases hz : Atoi z with
    | none => exact Or.inr ⟨_, GetPositionNumber_unparsed s x y z rest hz⟩
    | some n => exact Or.inl ⟨x, y, z, rest, n, rfl, hz⟩

/-- On a writer that holds the content type only, each of the three positional
functions answers without a fault unless the position is a negative integer. -/
theorem positional_answers (db : DB) (dat : Json) (T : String) (params : List String)
    (ok : Bool) :
    (∀ out ∈ [GetFromPosition ⟨db, [WCall.SetHeader "Content-Type" "application/json"], [],
                none⟩ T params,
              PutData ⟨db, [WCall.SetHeader "Content-Type" "application/json"], [], none⟩ dat T
                params ok,
              DeleteFromPosition ⟨db, [WCall.SetHeader "Content-Type" "application/json"], [],
                none⟩ T params ok],
      out.fault = none ∧ answered out.w = true) ∨
    (∃ a b pos rest n, params = a :: b :: pos :: rest ∧ Atoi pos = some n ∧ n < 0) := by
  rcases GetPositionNumber_shape
      ⟨db, [WCall.SetHeader "Content-Type" "application/json"], [], none⟩ params with
    ⟨a, b, pos, rest, n, hparams, hpos⟩ | ⟨msg, h⟩
  · subst hparams
    by_cases hn : n < 0
    · exact Or.inr ⟨a, b, pos, rest, n, rfl, hpos, hn⟩
    · left
      intro out hout
      simp only [List.mem_cons, List.mem_singleton, List.mem_nil_iff, or_false] at hout
      by_cases hlen : len (DB.get db T) ≤ n
      · obtain ⟨h1, h2, h3⟩ := position_outOfRange
          ⟨db, [WCall.SetHeader "Content-Type" "application/json"], [], none⟩ dat T a b pos rest
          n ok hpos hlen
        have key : out = ((⟨db, [WCall.SetHeader "Content-Type" "application/json"], [],
            none⟩ : World).WriteHeader StatusNotFound).Write (NewResponseError
              "Position is bigger than the number of elements in the table") := by
          rcases hout with h | h | h
          · rw [h, h1]
          · rw [h, h2]
          · rw [h, h3]
        rw [key]
        exact ⟨rfl, rfl⟩
      · have hcast : ((n.toNat : Nat) : Int) = n := by omega
        have hlt : n.toNat < (DB.get db T).toList.length := by
          rw [len_eq] at hlen; omega
        rw [← hcast] at hpos
        rcases hout with h | h | h
        · rw [h, GetFromPosition_inRange _ T a b pos rest n.toNat hpos hlt]
          exact ⟨rfl, rfl⟩
        · rw [h, PutData_inRange _ dat T a b pos rest n.toNat ok hpos hlt]
          cases ok
          · exact ⟨rfl, rfl⟩
          · exact ⟨rfl, rfl⟩
        · rw [h, DeleteFromPosition_inRange _ T a b pos rest n.toNat ok hpos hlt]
          cases ok
          · exact ⟨rfl, rfl⟩
          · exact ⟨rfl, rfl⟩
  · left
    intro out hout
    simp only [List.mem_cons, List.mem_singleton, List.mem_nil_iff, or_false] at hout
    have key : out = ((⟨db, [WCall.SetHeader "Content-Type" "application/json"], [],
        none⟩ : World).WriteHeader StatusBadRequest).Write (NewResponseError msg) := by
      rcases hout with h' | h' | h'
      · rw [h']; simp only [GetFromPosition, h, if_true]
      · rw [h']; simp only [PutData, h, if_true]
      · rw [h']; simp only [DeleteFromPosition, h, if_true]
    rw [key]
    exact ⟨rfl, rfl⟩

/-- Every request whose path starts with a slash is answered without a fault
(the content type, one status, one body; an error status comes with an
`error_message` body), unless its position segment is a negative integer or it
is a POST or PUT whose body decodes to null. -/
theorem Handler_answers_unless_negative_or_null (db : DB) (r : Request) (ok : Bool)
    (cs : List Char) (hslash : r.Path.data = Char.ofNat 47 :: cs) :
    ((Handler db r ok).fault = none ∧ answered (Handler db r ok).w = true) ∨
    (∃ first T pos rest n, Split r.Path = first :: T :: pos :: rest ∧ Atoi pos = some n ∧
      n < 0) ∨
    ((r.Method = "POST" ∨ r.Method = "PUT") ∧ r.Body = some Json.null) := by
  have hlen := Split_leading_slash r.Path cs hslash
  cases hsplit : Split r.Path with
  | nil => rw [hsplit] at hlen; simp at hlen
  | cons first xs =>
    cases xs with
    | nil => rw [hsplit] at hlen; simp at hlen
    | cons T rest =>
      have hpos3 := positional_answers db
      by_cases hname : T = ""
      · subst hname
        rw [Handler_empty_name db r ok first rest hsplit]
        exact Or.inl ⟨rfl, rfl⟩
      · by_cases hget : r.Method = "GET"
        · rw [Handler_GET db r ok first T rest hget hsplit hname]
          split_ifs
          · exact Or.inl ⟨rfl, rfl⟩
          · exact Or.inl ⟨rfl, rfl⟩
          · rcases hpos3 Json.null T (first :: T :: rest) ok with h | h
            · exact Or.inl (h _ (by simp; left; rfl))
            · exact Or.inr (Or.inl (by
                obtain ⟨a, b, pos, rest', n, hp, hn⟩ := h
                exact ⟨a, b, pos, rest', n, hp, hn⟩))
        · by_cases hpo : r.Method = "POST"
          · rw [Handler_POST db r ok first T rest hpo hsplit hname]
            cases hbody : r.Body with
            | none => exact Or.inl ⟨rfl, rfl⟩
            | some dat =>
              cases dat with
              | null => exact Or.inr (Or.inr ⟨Or.inl hpo, rfl⟩)
              | _ =>
                left
                simp only [Json.isNil, Bool.false_eq_true, if_false]
                rw [PostData_eq]
                cases ok
                · exact ⟨rfl, rfl⟩
                · exact ⟨rfl, rfl⟩
          · by_cases hput : r.Method = "PUT"
            · rw [Handler_PUT db r ok first T rest hput hsplit hname]
              cases hbody : r.Body with
              | none => exact Or.inl ⟨rfl, rfl⟩
              | some dat =>
                by_cases hnil : dat = Json.null
                · subst hnil
                  exact Or.inr (Or.inr ⟨Or.inr hput, rfl⟩)
                · have hnil' : dat.isNil = false := by
                    cases dat <;> first | rfl | exact absurd rfl hnil
                  simp only [hnil', Bool.false_eq_true, if_false]
                  rcases hpos3 dat T (first :: T :: rest) ok with h | h
                  · exact Or.inl (h _ (by simp; right; left; rfl))
                  · exact Or.inr (Or.inl (by
                      obtain ⟨a, b, pos, rest', n, hp, hn⟩ := h
                      exact ⟨a, b, pos, rest', n, hp, hn⟩))
            · by_cases hde : r.Method = "DELETE"
              · rw [Handler_DELETE db r ok first T rest hde hsplit hname]
                split_ifs
                · by_cases hex : db.exists T = true
                  · have hex' : ((⟨db, [], [], none⟩ : World).SetHeader "Content-Type"
                        "application/json").db.exists T = true := hex
                    rw [DeleteTable_existing _ T ok hex']
                    cases ok
                    · exact Or.inl
                        ⟨rfl, rfl⟩
                    · exact Or.inl ⟨rfl, rfl⟩
                  · have hex' : ((⟨db, [], [], none⟩ : World).SetHeader "Content-Type"
                        "application/json").db.exists T = false := by
                      simpa using hex
                    rw [DeleteTable_absent _ T ok hex']
                    exact Or.inl ⟨rfl, rfl⟩
                · rcases hpos3 Json.null T (first :: T :: rest) ok with h | h
                  · exact Or.inl (h _ (by simp; right; right; rfl))
                  · exact Or.inr (Or.inl (by
                      obtain ⟨a, b, pos, rest', n, hp, hn⟩ := h
                      exact ⟨a, b, pos, rest', n, hp, hn⟩))
              · rw [Handler_other db r ok first T rest hsplit hname hget hpo hput hde]
                exact Or.inl
                  ⟨rfl, rfl⟩

/-- GET /t/5 on the three-element table `t` is answered (with 404). -/
theorem Handler_answers_unless_negative_or_null_witness :
    (Handler sampleDB ⟨"GET", "/t/5", none⟩ true).fault = none ∧
    answered (Handler sampleDB ⟨"GET", "/t/5", none⟩ true).w = true := by
  rcases Handler_answers_unless_negative_or_null sampleDB ⟨"GET", "/t/5", none⟩ true
    _ rfl with h | ⟨first, T, pos, rest, n, hs, hp, hn⟩ | ⟨h, _⟩
  · exact h
  · exfalso
    have hsplit : Split "/t/5" = ["", "t", "5"] := by decide
    have hs' : ["", "t", "5"] = first :: T :: pos :: rest := hsplit.symm.trans hs
    injection hs' with _ h1
    injection h1 with _ h2
    injection h2 with h3 _
    subst h3
    have h5 : Atoi "5" = some 5 := by decide
    rw [h5] at hp
    injection hp with hp
    omega
  · exfalso
    rcases h with h | h
    · exact absurd h (by decide)
    · exact absurd h (by decide)

end JsonServer
